import Mathlib

/-!
Verification of the autocorrelation-test repository.

The repository consists of two Python files:
  * `q7_autocorrelation.py` with `parse_input_numbers` (free-text number
    extraction) and `autocorrelation_test` (the serial-autocorrelation
    hypothesis test);
  * `app_q7.py`, a presentation layer that only wires the two together.

This file gives a shallow embedding of both core functions and proves the
specification claims about them.  Python floats are modelled as real numbers
for the analyzer; for the parser, whose observable output distinguishes
finite values from the special values produced by tokens such as `inf` and
`nan`, parsed values live in the dedicated type `PyFloat` with exact rational
magnitudes for finite tokens.
-/

namespace Q7

/-- Result of converting one text token with the Python `float` builtin:
either a finite value (kept exact as a rational here), one of the two signed
infinities, or a not-a-number value. -/
inductive PyFloat where
  | finite (q : ℚ)
  | inf
  | neginf
  | nan
deriving DecidableEq, Repr

/-- True when no two adjacent characters are both underscores. -/
def noConsecUnderscore : List Char → Bool
  | [] => true
  | [_] => true
  | a :: b :: rest => !(a == '_' && b == '_') && noConsecUnderscore (b :: rest)

/-- A valid run of digits in the Python `float` grammar: nonempty, made of
decimal digits and underscores, beginning and ending with a digit, and with
no two consecutive underscores (underscores sit between digits). -/
def digitRunValid (cs : List Char) : Bool :=
  !cs.isEmpty && cs.all (fun c => c.isDigit || c == '_')
    && (cs.headD '_').isDigit && (cs.getLastD '_').isDigit
    && noConsecUnderscore cs

/-- Numeric value of a digit run, ignoring underscores. -/
def digitsVal (cs : List Char) : ℕ :=
  (cs.filter Char.isDigit).foldl (fun acc c => 10 * acc + (c.toNat - '0'.toNat)) 0

/-- Number of actual digit characters in a digit run. -/
def digitsCount (cs : List Char) : ℕ :=
  (cs.filter Char.isDigit).length

/-- Parses the unsigned decimal-literal part of the Python `float` grammar:
`digits [. digits] [e [sign] digits]`, where the integer and fractional digit
runs may not both be empty.  Returns the exact rational value, assembled with
natural-number arithmetic and one `mkRat` at the end. -/
def parseDecimal (cs : List Char) : Option ℚ :=
  let me := cs.span (fun c => !(c == 'e' || c == 'E'))
  let mant := me.1
  let ipRest := mant.span (fun c => !(c == '.'))
  let ip := ipRest.1
  let fp : List Char :=
    match ipRest.2 with
    | [] => []
    | _ :: fpcs => fpcs
  let mantOk : Bool :=
    match ipRest.2 with
    | [] => digitRunValid ip
    | _ :: fpcs =>
        ((ip.isEmpty || digitRunValid ip) && (fpcs.isEmpty || digitRunValid fpcs))
          && !(ip.isEmpty && fpcs.isEmpty)
  let cnt : ℕ := digitsCount fp
  let num : ℕ := digitsVal ip * 10 ^ cnt + digitsVal fp
  match me.2 with
  | [] => if mantOk then some (mkRat num (10 ^ cnt)) else none
  | _ :: ecs =>
      let negDigits : Bool × List Char :=
        match ecs with
        | '+' :: r => (false, r)
        | '-' :: r => (true, r)
        | r => (false, r)
      if mantOk && digitRunValid negDigits.2 then
        let e := digitsVal negDigits.2
        some (if negDigits.1 then mkRat num (10 ^ (cnt + e))
              else mkRat (num * 10 ^ e) (10 ^ cnt))
      else none

/-- Model of the Python `float` builtin on a whitespace-free token (the ASCII
part of its grammar): an optional sign followed by the case-insensitive
keywords `inf`, `infinity` or `nan`, or by a decimal literal in the grammar of
`parseDecimal`.  Returns `none` exactly when the builtin raises `ValueError`,
which `parse_input_numbers` catches and turns into skipping the token. -/
def pyFloatOfToken (cs : List Char) : Option PyFloat :=
  match cs with
  | [] => none
  | _ =>
    let negRest : Bool × List Char :=
      match cs with
      | '+' :: r => (false, r)
      | '-' :: r => (true, r)
      | r => (false, r)
    let lower := negRest.2.map Char.toLower
    if lower = "inf".data ∨ lower = "infinity".data then
      some (if negRest.1 then PyFloat.neginf else PyFloat.inf)
    else if lower = "nan".data then
      some PyFloat.nan
    else
      match parseDecimal negRest.2 with
      | some q => some (PyFloat.finite (if negRest.1 then Rat.neg q else q))
      | none => none

/-- Splits a character list at every character satisfying `p`, keeping empty
pieces, exactly like the Python `str.split(sep)` pattern on one separator:
an empty input yields one empty piece. -/
def splitOnPred (p : Char → Bool) : List Char → List (List Char)
  | [] => [[]]
  | c :: rest =>
      let r := splitOnPred p rest
      if p c then [] :: r
      else (c :: r.headD []) :: r.tail

/-- The Python `str.strip()` on a character list: removes leading and trailing
whitespace. -/
def stripChars (cs : List Char) : List Char :=
  ((cs.dropWhile Char.isWhitespace).reverse.dropWhile Char.isWhitespace).reverse

/-- Embedding of `parse_input_numbers` from `q7_autocorrelation.py`: strip the
text, split it into lines, replace each comma by a space in each line, split
each line on whitespace discarding empty pieces (the Python `str.split()`),
convert each token with `float`, and silently skip tokens on which the
conversion fails. -/
def parse_input_numbers (input_text : String) : List PyFloat :=
  let lines := splitOnPred (fun c => c == '\n') (stripChars input_text.data)
  (lines.map (fun line =>
    let parts := (splitOnPred Char.isWhitespace
        (line.map (fun c => if c == ',' then ' ' else c))).filter
      (fun t => !t.isEmpty)
    parts.filterMap pyFloatOfToken)).flatten

/-! ### The analyzer

`autocorrelation_test` works on Python floats, modelled here as real numbers.
`scipy.stats.norm.ppf` is the standard-normal inverse cumulative distribution
function, modelled as the inverse of the Gaussian-integral CDF `normCdf`. -/

open MeasureTheory in
/-- The standard normal cumulative distribution function, as used by
`scipy.stats.norm`: the Gaussian integral up to `x`, normalized by
`sqrt (2 * pi)`. -/
noncomputable def normCdf (x : ℝ) : ℝ :=
  (∫ t in Set.Iic x, Real.exp (-t ^ 2 / 2)) / Real.sqrt (2 * Real.pi)

/-- Model of `scipy.stats.norm.ppf`: the inverse of `normCdf` (the percent
point function of the standard normal distribution). -/
noncomputable def norm_ppf (p : ℝ) : ℝ :=
  Function.invFun normCdf p

/-- The fields of the dictionary returned by `autocorrelation_test` on the
non-error path (its `error` entry is `None`, which the embedding expresses by
the `TestResult.ok` constructor). -/
structure OkResult where
  N : ℕ
  i : ℕ
  m : ℕ
  M : ℕ
  alpha : ℝ
  mean : ℝ
  r_m : ℝ
  Z0 : ℝ
  Z_critical : ℝ
  reject_H0 : Prop
  conclusion : String
  positions : List ℕ
  subsequence : List ℝ

/-- Result of `autocorrelation_test`: either the error dictionary (message,
empty `positions`, empty `subsequence`, and no numeric fields) or the full
result dictionary. -/
inductive TestResult where
  | error (msg : String) (positions : List ℕ) (subsequence : List ℝ)
  | ok (r : OkResult)

/-- `True` exactly on results whose `error` entry is a message rather than
`None` (the check `result["error"]` performed by `app_q7.py`). -/
def TestResult.isError : TestResult → Bool
  | .error _ _ _ => true
  | .ok _ => false

/-- The mean `mean_u = np.mean(numbers)` of `autocorrelation_test`. -/
noncomputable def mean_u (numbers : List ℝ) : ℝ :=
  numbers.sum / (numbers.length : ℝ)

/-- The local `numerator = np.sum((numbers[:M] - mean_u) * (numbers[m:] -
mean_u))` of `autocorrelation_test`, with `M = N - m`: the elementwise product
of the two shifted, mean-centered slices, summed. -/
noncomputable def numerator (numbers : List ℝ) (m : ℕ) : ℝ :=
  (List.zipWith (fun a b => (a - mean_u numbers) * (b - mean_u numbers))
    (numbers.take (numbers.length - m)) (numbers.drop m)).sum

/-- The local `denominator = np.sum((numbers - mean_u) ** 2)` of
`autocorrelation_test`: the sum of squared deviations over all values. -/
noncomputable def denominator (numbers : List ℝ) : ℝ :=
  (numbers.map (fun x => (x - mean_u numbers) ^ 2)).sum

open Classical in
/-- The non-error branch of `autocorrelation_test` (lines 49 to 92 of
`q7_autocorrelation.py`), reaching the dictionary literal it returns, with the
local bindings `mean_u`, `numerator` and `denominator` lifted into the named
definitions above. -/
noncomputable def okResult (numbers : List ℝ) (i m : ℕ) (alpha : ℝ) : OkResult :=
  let N := numbers.length
  let M := N - m
  let r_m := numerator numbers m / denominator numbers
  let Z0 := r_m * Real.sqrt (N : ℝ)
  let Z_critical := norm_ppf (1 - alpha / 2)
  let reject_H0 := |Z0| > Z_critical
  let conclusion :=
    if reject_H0 then "Numbers are DEPENDENT (autocorrelation present)"
    else "Numbers are INDEPENDENT (no autocorrelation)"
  { N := N
    i := i
    m := m
    M := M
    alpha := alpha
    mean := mean_u numbers
    r_m := r_m
    Z0 := Z0
    Z_critical := Z_critical
    reject_H0 := reject_H0
    conclusion := conclusion
    positions := List.range' 1 N
    subsequence := numbers }

/-- Embedding of `autocorrelation_test` from `q7_autocorrelation.py`: if
`N < m + i` it returns the error dictionary with the message built by the
f-string on line 36; otherwise it returns the full result dictionary. -/
noncomputable def autocorrelation_test (numbers : List ℝ) (i m : ℕ)
    (alpha : ℝ) : TestResult :=
  let N := numbers.length
  if N < m + i then
    .error ("Not enough data for i=" ++ toString i ++ ", m=" ++ toString m
      ++ ". Need at least " ++ toString (i + m) ++ " numbers, got "
      ++ toString N ++ ".") [] []
  else
    .ok (okResult numbers i m alpha)

/-! ### Helper lemmas relating the numpy-style slice sums to indexed sums -/

theorem sum_map_eq_sum_range (f : ℝ → ℝ) (l : List ℝ) :
    (l.map f).sum = ∑ k in Finset.range l.length, f (l.getD k 0) := by
  induction l with
  | nil => simp
  | cons x xs ih =>
      simp [Finset.sum_range_succ', ih]
      exact add_comm _ _

theorem sum_eq_sum_range (l : List ℝ) :
    l.sum = ∑ k in Finset.range l.length, l.getD k 0 := by
  simpa using sum_map_eq_sum_range id l

theorem sum_zipWith_eq_sum_range (f : ℝ → ℝ → ℝ) :
    ∀ xs ys : List ℝ, (List.zipWith f xs ys).sum =
      ∑ k in Finset.range (min xs.length ys.length), f (xs.getD k 0) (ys.getD k 0)
  | [], ys => by simp
  | x :: xs, [] => by simp
  | x :: xs, y :: ys => by
      have ih := sum_zipWith_eq_sum_range f xs ys
      simp [Nat.succ_min_succ, Finset.sum_range_succ', ih]
      exact add_comm _ _

theorem numerator_eq_sum_range (numbers : List ℝ) (m : ℕ) :
    numerator numbers m =
      ∑ k in Finset.range (numbers.length - m),
        (numbers.getD k 0 - mean_u numbers)
          * (numbers.getD (k + m) 0 - mean_u numbers) := by
  rw [numerator, sum_zipWith_eq_sum_range]
  have hlen : min (numbers.take (numbers.length - m)).length
      (numbers.drop m).length = numbers.length - m := by
    simp [List.length_take, List.length_drop, Nat.min_eq_left, Nat.sub_le]
  rw [hlen]
  refine Finset.sum_congr rfl fun k hk => ?_
  have hk' : k < numbers.length - m := Finset.mem_range.mp hk
  rw [List.getD_eq_getElem?_getD, List.getD_eq_getElem?_getD,
    List.getElem?_take_of_lt hk', List.getElem?_drop,
    ← List.getD_eq_getElem?_getD, ← List.getD_eq_getElem?_getD, Nat.add_comm m k]

/-! ### Helper lemmas on shifting every value by a constant -/

theorem sum_map_add_const (l : List ℝ) (c : ℝ) :
    (l.map (fun x => x + c)).sum = l.sum + l.length * c := by
  induction l with
  | nil => simp
  | cons x xs ih => simp [ih]; ring

theorem mean_u_map_add_const (l : List ℝ) (c : ℝ) (hne : l ≠ []) :
    mean_u (l.map (fun x => x + c)) = mean_u l + c := by
  have hlen : (l.length : ℝ) ≠ 0 :=
    Nat.cast_ne_zero.mpr (List.length_pos.mpr hne).ne'
  simp only [mean_u, List.length_map, sum_map_add_const]
  field_simp
  ring

theorem numerator_map_add_const (l : List ℝ) (m : ℕ) (c : ℝ) (hne : l ≠ []) :
    numerator (l.map (fun x => x + c)) m = numerator l m := by
  simp only [numerator, List.length_map, mean_u_map_add_const l c hne,
    ← List.map_take, ← List.map_drop, List.zipWith_map_left,
    List.zipWith_map_right]
  have hfun : (fun (a b : ℝ) => (a + c - (mean_u l + c)) * (b + c - (mean_u l + c)))
      = fun (a b : ℝ) => (a - mean_u l) * (b - mean_u l) := by
    funext a b
    ring
  rw [hfun]

theorem denominator_map_add_const (l : List ℝ) (c : ℝ) (hne : l ≠ []) :
    denominator (l.map (fun x => x + c)) = denominator l := by
  simp only [denominator, mean_u_map_add_const l c hne, List.map_map]
  have hfun : ((fun (x : ℝ) => (x - (mean_u l + c)) ^ 2) ∘ fun x => x + c)
      = fun (x : ℝ) => (x - mean_u l) ^ 2 := by
    funext x
    simp only [Function.comp_apply]
    ring
  rw [hfun]

/-! ### The standard normal CDF is a strictly increasing bijection onto (0,1),
so its inverse `norm_ppf` is strictly increasing on (0,1) -/

open MeasureTheory Filter in
theorem gauss_integrable :
    MeasureTheory.Integrable (fun t : ℝ => Real.exp (-t ^ 2 / 2)) := by
  have hfun : (fun t : ℝ => Real.exp (-t ^ 2 / 2))
      = fun t : ℝ => Real.exp (-(1 / 2 : ℝ) * t ^ 2) := by
    funext t
    ring_nf
  rw [hfun]
  exact integrable_exp_neg_mul_sq (by norm_num)

theorem sqrt_two_pi_pos : 0 < Real.sqrt (2 * Real.pi) :=
  Real.sqrt_pos.mpr (by positivity)

open intervalIntegral in
theorem gaussInt_strictMono :
    StrictMono (fun x : ℝ => ∫ t in Set.Iic x, Real.exp (-t ^ 2 / 2)) := by
  intro a b hab
  have hsub := integral_Iic_sub_Iic (f := fun t : ℝ => Real.exp (-t ^ 2 / 2))
    (a := a) (b := b)
    gauss_integrable.integrableOn gauss_integrable.integrableOn
  have hpos : 0 < ∫ t in a..b, Real.exp (-t ^ 2 / 2) :=
    intervalIntegral_pos_of_pos_on gauss_integrable.intervalIntegrable
      (fun t _ => Real.exp_pos _) hab
  simp only
  linarith [hsub]

theorem normCdf_strictMono : StrictMono normCdf := by
  intro a b hab
  exact div_lt_div_of_pos_right (gaussInt_strictMono hab) sqrt_two_pi_pos

open MeasureTheory Filter in
theorem gauss_total :
    ∫ t : ℝ, Real.exp (-t ^ 2 / 2) = Real.sqrt (2 * Real.pi) := by
  have hfun : (fun t : ℝ => Real.exp (-t ^ 2 / 2))
      = fun t : ℝ => Real.exp (-(1 / 2 : ℝ) * t ^ 2) := by
    funext t
    ring_nf
  rw [hfun, integral_gaussian]
  rw [mul_comm, div_div_eq_mul_div, div_one]

open MeasureTheory Filter in
theorem gaussInt_decomp (x : ℝ) :
    ∫ t in Set.Iic x, Real.exp (-t ^ 2 / 2)
      = (∫ t in Set.Iic (0 : ℝ), Real.exp (-t ^ 2 / 2))
        + ∫ t in (0 : ℝ)..x, Real.exp (-t ^ 2 / 2) := by
  have hsub := intervalIntegral.integral_Iic_sub_Iic
    (f := fun t : ℝ => Real.exp (-t ^ 2 / 2)) (a := (0 : ℝ)) (b := x)
    gauss_integrable.integrableOn gauss_integrable.integrableOn
  linarith [hsub]

open MeasureTheory Filter in
theorem normCdf_tendsto_atTop : Tendsto normCdf atTop (nhds 1) := by
  have h1 : Tendsto (fun x : ℝ => ∫ t in (0 : ℝ)..x, Real.exp (-t ^ 2 / 2))
      atTop (nhds (∫ t in Set.Ioi (0 : ℝ), Real.exp (-t ^ 2 / 2))) :=
    MeasureTheory.intervalIntegral_tendsto_integral_Ioi 0
      gauss_integrable.integrableOn tendsto_id
  have h2 : Tendsto (fun x : ℝ => ∫ t in Set.Iic x, Real.exp (-t ^ 2 / 2))
      atTop (nhds (Real.sqrt (2 * Real.pi))) := by
    have h3 := (tendsto_const_nhds
      (x := ∫ t in Set.Iic (0 : ℝ), Real.exp (-t ^ 2 / 2)) (f := atTop)).add h1
    rw [intervalIntegral.integral_Iic_add_Ioi gauss_integrable.integrableOn
      gauss_integrable.integrableOn, gauss_total] at h3
    simpa only [← gaussInt_decomp] using h3
  have := h2.div_const (Real.sqrt (2 * Real.pi))
  rw [div_self sqrt_two_pi_pos.ne'] at this
  exact this

open MeasureTheory Filter in
theorem normCdf_tendsto_atBot : Tendsto normCdf atBot (nhds 0) := by
  have h1 : Tendsto (fun x : ℝ => ∫ t in x..(0 : ℝ), Real.exp (-t ^ 2 / 2))
      atBot (nhds (∫ t in Set.Iic (0 : ℝ), Real.exp (-t ^ 2 / 2))) :=
    MeasureTheory.intervalIntegral_tendsto_integral_Iic 0
      gauss_integrable.integrableOn tendsto_id
  have h2 : Tendsto (fun x : ℝ => ∫ t in Set.Iic x, Real.exp (-t ^ 2 / 2))
      atBot (nhds 0) := by
    have h3 := (tendsto_const_nhds
      (x := ∫ t in Set.Iic (0 : ℝ), Real.exp (-t ^ 2 / 2)) (f := atBot)).sub h1
    rw [sub_self] at h3
    refine h3.congr fun x => ?_
    rw [intervalIntegral.integral_symm]
    have := gaussInt_decomp x
    linarith [this]
  have := h2.div_const (Real.sqrt (2 * Real.pi))
  rw [zero_div] at this
  exact this

open MeasureTheory Filter in
theorem normCdf_continuous : Continuous normCdf := by
  have h1 : Continuous (fun x : ℝ => ∫ t in (0 : ℝ)..x, Real.exp (-t ^ 2 / 2)) :=
    gauss_integrable.continuous_primitive 0
  have h2 : Continuous (fun x : ℝ => ∫ t in Set.Iic x, Real.exp (-t ^ 2 / 2)) := by
    have := (continuous_const
      (y := ∫ t in Set.Iic (0 : ℝ), Real.exp (-t ^ 2 / 2))).add h1
    refine this.congr fun x => ?_
    exact (gaussInt_decomp x).symm
  exact h2.div_const _

open Filter in
theorem normCdf_exists_eq {p : ℝ} (hp0 : 0 < p) (hp1 : p < 1) :
    ∃ x, normCdf x = p := by
  obtain ⟨a, ha⟩ := (normCdf_tendsto_atBot.eventually_lt_const hp0).exists
  obtain ⟨b, hb⟩ := (normCdf_tendsto_atTop.eventually_const_lt hp1).exists
  have hab : a < b := normCdf_strictMono.lt_iff_lt.mp (ha.trans hb)
  obtain ⟨x, _, hx⟩ := intermediate_value_Icc hab.le
    normCdf_continuous.continuousOn ⟨ha.le, hb.le⟩
  exact ⟨x, hx⟩

theorem normCdf_norm_ppf {p : ℝ} (hp0 : 0 < p) (hp1 : p < 1) :
    normCdf (norm_ppf p) = p :=
  Function.invFun_eq (normCdf_exists_eq hp0 hp1)

theorem norm_ppf_lt_norm_ppf {p q : ℝ} (hp0 : 0 < p) (hq1 : q < 1)
    (hpq : p < q) : norm_ppf p < norm_ppf q := by
  have hp1 : p < 1 := hpq.trans hq1
  have hq0 : 0 < q := hp0.trans hpq
  apply normCdf_strictMono.lt_iff_lt.mp
  rw [normCdf_norm_ppf hp0 hp1, normCdf_norm_ppf hq0 hq1]
  exact hpq

end Q7

/-- C1: for every sequence with `N = len(numbers) >= i + m`,
`autocorrelation_test` computes `mean` as the arithmetic mean of all `N`
values, `r_m` as the quotient of
`numerator = sum over k from 0 to M-1 of (numbers[k]-mean)*(numbers[k+m]-mean)`
(with `M = N - m`) and
`denominator = sum over k from 0 to N-1 of (numbers[k]-mean)^2`, and
`Z0 = r_m * sqrt N`, and returns these values in the result record. -/
theorem C1_autocorrelation_test_formulas (numbers : List ℝ) (i m : ℕ)
    (alpha : ℝ) (h : i + m ≤ numbers.length) :
    Q7.autocorrelation_test numbers i m alpha =
        .ok (Q7.okResult numbers i m alpha)
      ∧ (Q7.okResult numbers i m alpha).mean =
        (∑ k in Finset.range numbers.length, numbers.getD k 0)
          / (numbers.length : ℝ)
      ∧ (Q7.okResult numbers i m alpha).r_m =
        (∑ k in Finset.range (numbers.length - m),
            (numbers.getD k 0 - (Q7.okResult numbers i m alpha).mean)
              * (numbers.getD (k + m) 0 - (Q7.okResult numbers i m alpha).mean))
          / (∑ k in Finset.range numbers.length,
            (numbers.getD k 0 - (Q7.okResult numbers i m alpha).mean) ^ 2)
      ∧ (Q7.okResult numbers i m alpha).Z0 =
        (Q7.okResult numbers i m alpha).r_m * Real.sqrt (numbers.length : ℝ) := by
  have hmi : ¬ (numbers.length < m + i) := by omega
  refine ⟨by simp [Q7.autocorrelation_test, hmi], ?_, ?_, ?_⟩
  · simp [Q7.okResult, Q7.mean_u, Q7.sum_eq_sum_range]
  · simp only [Q7.okResult]
    rw [Q7.numerator_eq_sum_range numbers m, Q7.denominator,
      Q7.sum_map_eq_sum_range]
  · simp [Q7.okResult]

/-- C1 witness: the theorem instantiated at `numbers = [0,1]`, `i = m = 1`,
`alpha = 1/2`. -/
theorem C1_autocorrelation_test_formulas_witness :
    (1 + 1 ≤ ([(0 : ℝ), 1]).length)
      ∧ (Q7.autocorrelation_test [(0 : ℝ), 1] 1 1 (1 / 2) =
          .ok (Q7.okResult [(0 : ℝ), 1] 1 1 (1 / 2))
        ∧ (Q7.okResult [(0 : ℝ), 1] 1 1 (1 / 2)).mean =
          (∑ k in Finset.range ([(0 : ℝ), 1]).length, ([(0 : ℝ), 1]).getD k 0)
            / (([(0 : ℝ), 1]).length : ℝ)
        ∧ (Q7.okResult [(0 : ℝ), 1] 1 1 (1 / 2)).r_m =
          (∑ k in Finset.range (([(0 : ℝ), 1]).length - 1),
              (([(0 : ℝ), 1]).getD k 0 - (Q7.okResult [(0 : ℝ), 1] 1 1 (1 / 2)).mean)
                * (([(0 : ℝ), 1]).getD (k + 1) 0
                  - (Q7.okResult [(0 : ℝ), 1] 1 1 (1 / 2)).mean))
            / (∑ k in Finset.range ([(0 : ℝ), 1]).length,
              (([(0 : ℝ), 1]).getD k 0
                - (Q7.okResult [(0 : ℝ), 1] 1 1 (1 / 2)).mean) ^ 2)
        ∧ (Q7.okResult [(0 : ℝ), 1] 1 1 (1 / 2)).Z0 =
          (Q7.okResult [(0 : ℝ), 1] 1 1 (1 / 2)).r_m
            * Real.sqrt (([(0 : ℝ), 1]).length : ℝ)) :=
  ⟨by simp, C1_autocorrelation_test_formulas [(0 : ℝ), 1] 1 1 (1 / 2) (by simp)⟩

/-- C2: `autocorrelation_test` returns an error result if and only if
`len(numbers) < i + m`; in the error case the result carries a message stating
the required minimum count `i + m` versus the supplied count `N`, and contains
no computed numeric fields (the `TestResult.error` constructor carries only
the message and the empty `positions` and `subsequence` lists); for every
sequence with `N >= i + m` it returns a non-error result with `M = N - m`. -/
theorem C2_autocorrelation_test_error_iff (numbers : List ℝ) (i m : ℕ)
    (alpha : ℝ) :
    ((Q7.autocorrelation_test numbers i m alpha).isError = true
        ↔ numbers.length < i + m)
      ∧ (numbers.length < i + m →
          Q7.autocorrelation_test numbers i m alpha =
            .error ("Not enough data for i=" ++ toString i ++ ", m="
              ++ toString m ++ ". Need at least " ++ toString (i + m)
              ++ " numbers, got " ++ toString numbers.length ++ ".") [] [])
      ∧ (i + m ≤ numbers.length →
          Q7.autocorrelation_test numbers i m alpha =
            .ok (Q7.okResult numbers i m alpha)
          ∧ (Q7.okResult numbers i m alpha).M = numbers.length - m) := by
  by_cases hlt : numbers.length < m + i
  · have hlt' : numbers.length < i + m := by omega
    refine ⟨by simp [Q7.autocorrelation_test, hlt, Q7.TestResult.isError, hlt'],
      fun _ => by simp [Q7.autocorrelation_test, hlt], fun hge => absurd hlt' (by omega)⟩
  · have hge : ¬ numbers.length < i + m := by omega
    exact ⟨by simp [Q7.autocorrelation_test, hlt, Q7.TestResult.isError, hge],
      fun hc => absurd hc hge,
      fun _ => ⟨by simp [Q7.autocorrelation_test, hlt], by simp [Q7.okResult]⟩⟩

/-- C2 witness: at `numbers = [5]`, `i = 2`, `m = 3` the test reports the
error with the message naming `5` required values and `1` supplied; at
`numbers = [0,1,2,3,4]` it reports no error and `M = 4`. -/
theorem C2_autocorrelation_test_error_iff_witness :
    (([(5 : ℝ)]).length < 2 + 3
      ∧ Q7.autocorrelation_test [(5 : ℝ)] 2 3 (1 / 2) =
          .error "Not enough data for i=2, m=3. Need at least 5 numbers, got 1." [] [])
      ∧ ((Q7.autocorrelation_test [(0 : ℝ), 1, 2, 3, 4] 1 1 (1 / 2)).isError = true
          ↔ ([(0 : ℝ), 1, 2, 3, 4]).length < 1 + 1) :=
  ⟨⟨by simp,
    by simpa using
      (C2_autocorrelation_test_error_iff [(5 : ℝ)] 2 3 (1 / 2)).2.1 (by simp)⟩,
    (C2_autocorrelation_test_error_iff [(0 : ℝ), 1, 2, 3, 4] 1 1 (1 / 2)).1⟩

/-- C3: in every non-error result of `autocorrelation_test`, `reject_H0` holds
if and only if `|Z0| > Z_critical` with a strict comparison; in the boundary
case `|Z0| = Z_critical`, `reject_H0` is false; and the conclusion text
reports dependence exactly when `reject_H0` holds. -/
theorem C3_autocorrelation_test_reject_rule (numbers : List ℝ) (i m : ℕ)
    (alpha : ℝ) (h : i + m ≤ numbers.length) :
    Q7.autocorrelation_test numbers i m alpha =
        .ok (Q7.okResult numbers i m alpha)
      ∧ ((Q7.okResult numbers i m alpha).reject_H0
          ↔ |(Q7.okResult numbers i m alpha).Z0|
              > (Q7.okResult numbers i m alpha).Z_critical)
      ∧ (|(Q7.okResult numbers i m alpha).Z0|
            = (Q7.okResult numbers i m alpha).Z_critical →
          ¬ (Q7.okResult numbers i m alpha).reject_H0)
      ∧ ((Q7.okResult numbers i m alpha).conclusion =
            "Numbers are DEPENDENT (autocorrelation present)"
          ↔ (Q7.okResult numbers i m alpha).reject_H0) := by
  have hmi : ¬ (numbers.length < m + i) := by omega
  refine ⟨by simp [Q7.autocorrelation_test, hmi], Iff.rfl, ?_, ?_⟩
  · intro he hr
    simp only [Q7.okResult] at he hr
    exact absurd hr (by simp [he])
  · simp only [Q7.okResult]
    by_cases hr : |(Q7.numerator numbers m / Q7.denominator numbers)
        * Real.sqrt (numbers.length : ℝ)| > Q7.norm_ppf (1 - alpha / 2)
    · rw [if_pos hr]
      simp [hr]
    · rw [if_neg hr]
      constructor
      · intro hc
        exact absurd hc (by decide)
      · intro hc
        exact absurd hc hr

/-- C3 witness: the theorem instantiated at `numbers = [0,1,2]`, `i = m = 1`,
`alpha = 1/2`. -/
theorem C3_autocorrelation_test_reject_rule_witness :
    (1 + 1 ≤ ([(0 : ℝ), 1, 2]).length)
      ∧ (Q7.autocorrelation_test [(0 : ℝ), 1, 2] 1 1 (1 / 2) =
          .ok (Q7.okResult [(0 : ℝ), 1, 2] 1 1 (1 / 2))
        ∧ ((Q7.okResult [(0 : ℝ), 1, 2] 1 1 (1 / 2)).reject_H0
            ↔ |(Q7.okResult [(0 : ℝ), 1, 2] 1 1 (1 / 2)).Z0|
                > (Q7.okResult [(0 : ℝ), 1, 2] 1 1 (1 / 2)).Z_critical)
        ∧ (|(Q7.okResult [(0 : ℝ), 1, 2] 1 1 (1 / 2)).Z0|
              = (Q7.okResult [(0 : ℝ), 1, 2] 1 1 (1 / 2)).Z_critical →
            ¬ (Q7.okResult [(0 : ℝ), 1, 2] 1 1 (1 / 2)).reject_H0)
        ∧ ((Q7.okResult [(0 : ℝ), 1, 2] 1 1 (1 / 2)).conclusion =
              "Numbers are DEPENDENT (autocorrelation present)"
            ↔ (Q7.okResult [(0 : ℝ), 1, 2] 1 1 (1 / 2)).reject_H0)) :=
  ⟨by simp, C3_autocorrelation_test_reject_rule [(0 : ℝ), 1, 2] 1 1 (1 / 2) (by simp)⟩

/-- C4: for every `i >= 1` and `m >= 1`, whenever `autocorrelation_test`
returns a non-error result, the invariant `M = N - m >= 1` holds. -/
theorem C4_autocorrelation_test_M_invariant (numbers : List ℝ) (i m : ℕ)
    (alpha : ℝ) (hi : 1 ≤ i) (hm : 1 ≤ m)
    (h : (Q7.autocorrelation_test numbers i m alpha).isError = false) :
    Q7.autocorrelation_test numbers i m alpha =
        .ok (Q7.okResult numbers i m alpha)
      ∧ (Q7.okResult numbers i m alpha).M = numbers.length - m
      ∧ 1 ≤ (Q7.okResult numbers i m alpha).M := by
  by_cases hlt : numbers.length < m + i
  · exact absurd h (by simp [Q7.autocorrelation_test, hlt, Q7.TestResult.isError])
  · refine ⟨by simp [Q7.autocorrelation_test, hlt], by simp [Q7.okResult], ?_⟩
    have : numbers.length - m ≥ 1 := by omega
    simpa [Q7.okResult] using this

/-- C4 witness: the theorem instantiated at `numbers = [0,1]`, `i = m = 1`,
`alpha = 1/2`, where `M = 1`. -/
theorem C4_autocorrelation_test_M_invariant_witness :
    (1 ≤ 1
      ∧ (Q7.autocorrelation_test [(0 : ℝ), 1] 1 1 (1 / 2)).isError = false)
      ∧ (Q7.autocorrelation_test [(0 : ℝ), 1] 1 1 (1 / 2) =
          .ok (Q7.okResult [(0 : ℝ), 1] 1 1 (1 / 2))
        ∧ (Q7.okResult [(0 : ℝ), 1] 1 1 (1 / 2)).M = ([(0 : ℝ), 1]).length - 1
        ∧ 1 ≤ (Q7.okResult [(0 : ℝ), 1] 1 1 (1 / 2)).M) :=
  ⟨⟨le_refl 1, by simp [Q7.autocorrelation_test, Q7.TestResult.isError]⟩,
    C4_autocorrelation_test_M_invariant [(0 : ℝ), 1] 1 1 (1 / 2) (le_refl 1)
      (le_refl 1) (by simp [Q7.autocorrelation_test, Q7.TestResult.isError])⟩

/-- C5: for every sequence with `N >= i + m` and nonzero denominator, and
every constant `c`, the `r_m` of `autocorrelation_test` on the sequence with
`c` added to every element equals the `r_m` on the original sequence
(exactly, in the real-number model): `r_m` is invariant under a constant
additive shift of every input value. -/
theorem C5_autocorrelation_test_shift_invariant (numbers : List ℝ) (i m : ℕ)
    (alpha c : ℝ) (h : i + m ≤ numbers.length)
    (hden : Q7.denominator numbers ≠ 0) :
    Q7.autocorrelation_test (numbers.map (fun x => x + c)) i m alpha =
        .ok (Q7.okResult (numbers.map (fun x => x + c)) i m alpha)
      ∧ Q7.autocorrelation_test numbers i m alpha =
        .ok (Q7.okResult numbers i m alpha)
      ∧ (Q7.okResult (numbers.map (fun x => x + c)) i m alpha).r_m
        = (Q7.okResult numbers i m alpha).r_m := by
  have hne : numbers ≠ [] := by
    intro h0
    exact hden (by simp [Q7.denominator, h0])
  have hmi : ¬ ((numbers.map (fun x => x + c)).length < m + i) := by
    simp only [List.length_map]
    omega
  have hmi' : ¬ (numbers.length < m + i) := by omega
  refine ⟨by simp only [Q7.autocorrelation_test]
             rw [if_neg hmi],
    by simp [Q7.autocorrelation_test, hmi'], ?_⟩
  simp only [Q7.okResult, List.length_map]
  rw [Q7.numerator_map_add_const numbers m c hne,
    Q7.denominator_map_add_const numbers c hne]

/-- C5 witness: the theorem instantiated at `numbers = [0,1]`, `i = m = 1`,
`alpha = 1/2`, `c = 5`, whose denominator is `1/2`. -/
theorem C5_autocorrelation_test_shift_invariant_witness :
    (1 + 1 ≤ ([(0 : ℝ), 1]).length ∧ Q7.denominator [(0 : ℝ), 1] ≠ 0)
      ∧ (Q7.autocorrelation_test (([(0 : ℝ), 1]).map (fun x => x + 5)) 1 1 (1 / 2) =
          .ok (Q7.okResult (([(0 : ℝ), 1]).map (fun x => x + 5)) 1 1 (1 / 2))
        ∧ Q7.autocorrelation_test [(0 : ℝ), 1] 1 1 (1 / 2) =
          .ok (Q7.okResult [(0 : ℝ), 1] 1 1 (1 / 2))
        ∧ (Q7.okResult (([(0 : ℝ), 1]).map (fun x => x + 5)) 1 1 (1 / 2)).r_m
          = (Q7.okResult [(0 : ℝ), 1] 1 1 (1 / 2)).r_m) :=
  ⟨⟨by simp, by norm_num [Q7.denominator, Q7.mean_u]⟩,
    C5_autocorrelation_test_shift_invariant [(0 : ℝ), 1] 1 1 (1 / 2) 5 (by simp)
      (by norm_num [Q7.denominator, Q7.mean_u])⟩

/-- C6: for every sequence of all-identical values with `N >= i + m`,
`autocorrelation_test` does not return an error result: the denominator is
zero and the division producing `r_m` is an unguarded division by zero (the
Python floats produce a silent NaN there; in this real-number model the
division by the zero denominator is exhibited literally). -/
theorem C6_autocorrelation_test_degenerate_sample (x : ℝ) (n i m : ℕ)
    (alpha : ℝ) (h : i + m ≤ n) :
    Q7.autocorrelation_test (List.replicate n x) i m alpha =
        .ok (Q7.okResult (List.replicate n x) i m alpha)
      ∧ Q7.denominator (List.replicate n x) = 0
      ∧ (Q7.okResult (List.replicate n x) i m alpha).r_m
        = Q7.numerator (List.replicate n x) m / 0 := by
  have hmi : ¬ ((List.replicate n x).length < m + i) := by
    simp only [List.length_replicate]
    omega
  have hden : Q7.denominator (List.replicate n x) = 0 := by
    rcases Nat.eq_zero_or_pos n with hn | hn
    · subst hn
      simp [Q7.denominator]
    · have hcast : ((n : ℝ)) ≠ 0 := Nat.cast_ne_zero.mpr hn.ne'
      have hmean : Q7.mean_u (List.replicate n x) = x := by
        simp only [Q7.mean_u, List.sum_replicate, List.length_replicate,
          nsmul_eq_mul]
        field_simp
      simp [Q7.denominator, hmean, List.map_replicate, List.sum_replicate]
  refine ⟨by simp only [Q7.autocorrelation_test]
             rw [if_neg hmi], hden, ?_⟩
  simp only [Q7.okResult]
  rw [hden]

/-- C6 witness: the theorem instantiated at the constant sequence
`[7, 7] = List.replicate 2 7` with `i = m = 1`, `alpha = 1/2`. -/
theorem C6_autocorrelation_test_degenerate_sample_witness :
    (1 + 1 ≤ 2)
      ∧ (Q7.autocorrelation_test (List.replicate 2 (7 : ℝ)) 1 1 (1 / 2) =
          .ok (Q7.okResult (List.replicate 2 (7 : ℝ)) 1 1 (1 / 2))
        ∧ Q7.denominator (List.replicate 2 (7 : ℝ)) = 0
        ∧ (Q7.okResult (List.replicate 2 (7 : ℝ)) 1 1 (1 / 2)).r_m
          = Q7.numerator (List.replicate 2 (7 : ℝ)) 1 / 0) :=
  ⟨by decide, C6_autocorrelation_test_degenerate_sample 7 2 1 1 (1 / 2) (by decide)⟩

/-- C8: the parameter `i` does not influence any computed value: for any two
starting positions `i1`, `i2` admissible for the same sequence, lag and
significance level, the two results agree on every field except the echoed
field `i`. -/
theorem C8_autocorrelation_test_i_no_influence (numbers : List ℝ)
    (i1 i2 m : ℕ) (alpha : ℝ) (h1 : i1 + m ≤ numbers.length)
    (h2 : i2 + m ≤ numbers.length) :
    Q7.autocorrelation_test numbers i1 m alpha =
        .ok (Q7.okResult numbers i1 m alpha)
      ∧ Q7.autocorrelation_test numbers i2 m alpha =
        .ok (Q7.okResult numbers i2 m alpha)
      ∧ Q7.okResult numbers i2 m alpha =
        { Q7.okResult numbers i1 m alpha with i := i2 } := by
  have hmi1 : ¬ (numbers.length < m + i1) := by omega
  have hmi2 : ¬ (numbers.length < m + i2) := by omega
  exact ⟨by simp [Q7.autocorrelation_test, hmi1],
    by simp [Q7.autocorrelation_test, hmi2], rfl⟩

/-- C8 witness: the theorem instantiated at `numbers = [0,1,2]`, `m = 1`,
`alpha = 1/2` and the two starting positions `1` and `2`. -/
theorem C8_autocorrelation_test_i_no_influence_witness :
    (1 + 1 ≤ ([(0 : ℝ), 1, 2]).length ∧ 2 + 1 ≤ ([(0 : ℝ), 1, 2]).length)
      ∧ (Q7.autocorrelation_test [(0 : ℝ), 1, 2] 1 1 (1 / 2) =
          .ok (Q7.okResult [(0 : ℝ), 1, 2] 1 1 (1 / 2))
        ∧ Q7.autocorrelation_test [(0 : ℝ), 1, 2] 2 1 (1 / 2) =
          .ok (Q7.okResult [(0 : ℝ), 1, 2] 2 1 (1 / 2))
        ∧ Q7.okResult [(0 : ℝ), 1, 2] 2 1 (1 / 2) =
          { Q7.okResult [(0 : ℝ), 1, 2] 1 1 (1 / 2) with i := 2 }) :=
  ⟨⟨by simp, by simp⟩,
    C8_autocorrelation_test_i_no_influence [(0 : ℝ), 1, 2] 1 2 1 (1 / 2)
      (by simp) (by simp)⟩

/-- C9: `Z_critical`, computed as the inverse standard-normal CDF at
`1 - alpha/2`, is strictly monotonically decreasing in `alpha` on `(0,1)`:
for `alpha1 < alpha2` the critical value at `alpha1` is larger.  (The claim
additionally illustrates this with the floating-point values `1.95996` for
`alpha = 0.05` and `2.5758` for `alpha = 0.01`; those decimal approximations
carry no stated tolerance and are not part of the formal statement.) -/
theorem C9_Z_critical_antitone (numbers : List ℝ) (i m : ℕ) (a1 a2 : ℝ)
    (h1 : a1 ∈ Set.Ioo (0 : ℝ) 1) (h2 : a2 ∈ Set.Ioo (0 : ℝ) 1)
    (h12 : a1 < a2) :
    (Q7.okResult numbers i m a2).Z_critical
      < (Q7.okResult numbers i m a1).Z_critical := by
  simp only [Q7.okResult]
  apply Q7.norm_ppf_lt_norm_ppf
  · linarith [h2.2]
  · linarith [h1.1]
  · linarith

/-- C9 witness: the theorem instantiated at `alpha1 = 0.01 < alpha2 = 0.05`. -/
theorem C9_Z_critical_antitone_witness :
    (((1 : ℝ) / 100) ∈ Set.Ioo (0 : ℝ) 1 ∧ ((5 : ℝ) / 100) ∈ Set.Ioo (0 : ℝ) 1
        ∧ (1 : ℝ) / 100 < (5 : ℝ) / 100)
      ∧ (Q7.okResult [] 1 1 ((5 : ℝ) / 100)).Z_critical
        < (Q7.okResult [] 1 1 ((1 : ℝ) / 100)).Z_critical :=
  ⟨⟨by norm_num, by norm_num, by norm_num⟩,
    C9_Z_critical_antitone [] 1 1 ((1 : ℝ) / 100) ((5 : ℝ) / 100)
      (by norm_num) (by norm_num) (by norm_num)⟩

/-- C7: `parse_input_numbers` splits its input on newlines, normalizes commas
to whitespace, splits on whitespace, parses each token as a real number and
silently discards tokens that fail to parse; in particular
`parse_numbers "1,2 3\n4" = [1.0, 2.0, 3.0, 4.0]`,
`parse_numbers "abc 1 xyz 2" = [1.0, 2.0]`, and empty input yields the empty
sequence. -/
theorem C7_parse_input_numbers_examples :
    Q7.parse_input_numbers "1,2 3\n4" =
        [.finite 1, .finite 2, .finite 3, .finite 4]
      ∧ Q7.parse_input_numbers "abc 1 xyz 2" = [.finite 1, .finite 2]
      ∧ Q7.parse_input_numbers "" = [] :=
  ⟨rfl, rfl, rfl⟩

/-- C10: `parse_input_numbers` accepts every token the Python `float`
conversion accepts, not only plain decimals: scientific notation such as
`1e3`, and the case-insensitive special tokens `inf`, `-inf` and `nan`, are
kept in the output as their float values (a `nan` token silently introduces a
NaN into the sample) instead of being discarded as non-numeric. -/
theorem C10_parse_input_numbers_special_tokens :
    Q7.parse_input_numbers "1e3 inf -inf nan NaN INF -Infinity Infinity" =
      [.finite 1000, .inf, .neginf, .nan, .nan, .inf, .neginf, .inf] :=
  rfl
